import Mathlib

/-!
Verification development for the YouTube downloader service (`src/main.py`).

The Python string operations used by the code (`in`, `split`, `replace`,
`rsplit`, `lower`, `isdigit`, `re.sub(r"\D", "", s)`) are embedded as
executable functions on `List Char` / `String`, and the three core methods of
`YouTubeDownloader` (`normalize_url`, the format selection inside
`download_video` / `download_playlist`, and the download orchestration with
its `try`/`except` error wrapping) are translated definition by definition.
The external extraction engine (`yt_dlp`) and the filesystem are opaque
collaborators in the source; they are passed in here as explicit data: the
engine call's outcome, and a map from file names to `Option Nat` (present
with a size, or absent).
-/

/-- `isPrefixL pat l` decides whether `pat` is a prefix of `l`
(character-by-character comparison, as Python's substring matching does). -/
def isPrefixL : List Char → List Char → Bool
  | [], _ => true
  | _ :: _, [] => false
  | p :: ps, x :: xs => decide (p = x) && isPrefixL ps xs

/-- `containsSub hay needle` is Python's `needle in hay` on character lists:
true iff `needle` occurs contiguously inside `hay`. -/
def containsSub : List Char → List Char → Bool
  | [], needle => needle.isEmpty
  | x :: xs, needle => isPrefixL needle (x :: xs) || containsSub xs needle

/-- Python's `needle in hay` for strings. -/
def pyIn (needle hay : String) : Bool := containsSub hay.data needle.data

/-- Worker for Python's `str.split(sep)` (`sep` non-empty).  The counter is
the number of characters of a just-matched separator still to be skipped. -/
def splitGo (sep : List Char) : List Char → Nat → List (List Char)
  | [], _ => [[]]
  | _ :: xs, Nat.succ k => splitGo sep xs k
  | x :: xs, 0 =>
    if isPrefixL sep (x :: xs) then
      [] :: splitGo sep xs (sep.length - 1)
    else
      match splitGo sep xs 0 with
      | [] => [[x]]
      | h :: t => (x :: h) :: t

/-- Python's `s.split(sep)` on character lists (`sep` non-empty): all pieces
between occurrences of `sep`, empty pieces kept. -/
def pySplit (sep l : List Char) : List (List Char) := splitGo sep l 0

/-- Python's `s.split('?')[0]`: the piece before the first `'?'`
(the whole string when no `'?'` occurs). -/
def splitQHead (l : List Char) : List Char := (pySplit ['?'] l).headD []

/-- Worker for Python's `str.replace(pat, repl)` (`pat` non-empty); the
counter skips the remaining characters of a just-matched pattern. -/
def replGo (pat repl : List Char) : List Char → Nat → List Char
  | [], _ => []
  | _ :: xs, Nat.succ k => replGo pat repl xs k
  | x :: xs, 0 =>
    if isPrefixL pat (x :: xs) then
      repl ++ replGo pat repl xs (pat.length - 1)
    else
      x :: replGo pat repl xs 0

/-- Python's `s.replace(pat, repl)` (all non-overlapping occurrences,
left to right; `pat` non-empty in every use below). -/
def pyReplace (pat repl l : List Char) : List Char := replGo pat repl l 0

/-- Python's `s.lower()` (ASCII case folding suffices for the patterns the
source matches against). -/
def pyLower (s : String) : String := String.mk (s.data.map Char.toLower)

/-- Python's `s.isdigit()`: non-empty and every character a digit. -/
def pyIsdigit (s : String) : Bool := !s.data.isEmpty && s.data.all Char.isDigit

/-- `re.sub(r"\D", "", s)`: drop every non-digit character. -/
def stripNonDigits (s : String) : String := String.mk (s.data.filter Char.isDigit)

/-- `filename.rsplit('.', 1)[0]`: everything before the last `'.'`, or the
whole string when no `'.'` occurs. -/
def rsplitDotHead (l : List Char) : List Char :=
  if '.' ∈ l then ((l.reverse.dropWhile (fun c => c ≠ '.')).drop 1).reverse else l

/-- `YouTubeDownloader.normalize_url` (src/main.py lines 77-98).  Four
substring-triggered rules, first match returning: `youtu.be` short links,
`m.youtube.com` host substitution (after which the embed and `/v/` checks run
against the substituted string), `/embed/` links, `/v/` links; otherwise the
(possibly substituted) string is returned unchanged. -/
def normalize_url (url : String) : String :=
  if pyIn "youtu.be" url then
    "https://www.youtube.com/watch?v=" ++
      String.mk (splitQHead ((pySplit ['/'] url.data).getLastD []))
  else
    let url2 :=
      if pyIn "m.youtube.com" url then
        String.mk (pyReplace "m.youtube.com".data "www.youtube.com".data url.data)
      else url
    if pyIn "/embed/" url2 then
      "https://www.youtube.com/watch?v=" ++
        String.mk (splitQHead ((pySplit "/embed/".data url2.data).getLastD []))
    else if pyIn "/v/" url2 then
      "https://www.youtube.com/watch?v=" ++
        String.mk (splitQHead ((pySplit "/v/".data url2.data).getLastD []))
    else url2

/-- One entry of the `postprocessors` list passed to the engine
(the dicts at src/main.py lines 146-150 and 221-225). -/
structure PostProcessor where
  key : String
  preferredcodec : String
  preferredquality : String
deriving DecidableEq

/-- The single-video height extraction (src/main.py lines 158-160 and
171-173): `height = re.sub(r"\D", "", quality)`, then `"1080"` when the
result is empty. -/
def single_height (quality : String) : String :=
  if stripNonDigits quality = "" then "1080" else stripNonDigits quality

/-- Format selection of `YouTubeDownloader.download_video`
(src/main.py lines 140-179): the `(format_string, postprocessors)` pair. -/
def single_format (format_selector quality : String) : String × List PostProcessor :=
  if format_selector ≠ "" ∧ (pyIsdigit format_selector = true ∨ pyIn "-" format_selector = true) then
    (format_selector, [])
  else if format_selector = "mp3" then
    ("bestaudio/best", [⟨"FFmpegExtractAudio", "mp3", "192"⟩])
  else if format_selector = "mp4" then
    if quality = "best" then
      ("bestvideo[ext=mp4]+bestaudio[ext=m4a]/best[ext=mp4]/best", [])
    else if quality = "worst" then
      ("worstvideo[ext=mp4]+worstaudio[ext=m4a]/worst[ext=mp4]/worst", [])
    else
      ("bestvideo[height<=" ++ single_height quality ++ "][ext=mp4]+bestaudio[ext=m4a]/" ++
       "best[height<=" ++ single_height quality ++ "][ext=mp4]/" ++
       "bestvideo[ext=mp4]+bestaudio[ext=m4a]/best[ext=mp4]/best", [])
  else
    if quality = "best" ∨ quality = "worst" then
      (quality, [])
    else
      ("bestvideo[height<=" ++ single_height quality ++ "]+bestaudio/" ++
       "best[height<=" ++ single_height quality ++ "]/" ++
       "bestvideo+bestaudio/best", [])

/-- The playlist height extraction (src/main.py lines 232 and 241):
`height = quality.replace('p', '')` — every `'p'` is removed, and there is no
`"1080"` fallback. -/
def playlist_height (quality : String) : String :=
  String.mk (pyReplace "p".data "".data quality.data)

/-- Format selection of `YouTubeDownloader.download_playlist`
(src/main.py lines 219-243). -/
def playlist_format (format_selector quality : String) : String × List PostProcessor :=
  if format_selector = "mp3" then
    ("bestaudio/best", [⟨"FFmpegExtractAudio", "mp3", "192"⟩])
  else if format_selector = "mp4" then
    if quality = "best" then
      ("best[ext=mp4]/best", [])
    else if quality = "worst" then
      ("worst[ext=mp4]/worst", [])
    else
      ("best[height<=" ++ playlist_height quality ++ "][ext=mp4]/" ++
       "best[height<=" ++ playlist_height quality ++ "]/best[ext=mp4]/best", [])
  else
    if quality = "best" then
      ("best", [])
    else if quality = "worst" then
      ("worst", [])
    else
      ("best[height<=" ++ playlist_height quality ++ "]/best", [])

/-- Modelled from the spec: "Height string parsing here simply strips a
trailing `p` suffix" (the spec's description of the playlist height
extraction), to be compared with `playlist_height` from the source. -/
def spec_trailing_p (quality : String) : String :=
  if quality.data.getLast? = some 'p' then String.mk quality.data.dropLast else quality

/-- A raised Python exception as it travels through the downloader:
either a FastAPI `HTTPException(status_code, detail)` or a generic engine
exception carrying its message. -/
inductive PyExc where
  | http (status_code : Nat) (detail : String)
  | engine (msg : String)
deriving DecidableEq

/-- Python's `str(e)`.  Starlette's `HTTPException.__str__` renders
`f"{self.status_code}: {self.detail}"`; a generic exception renders its
message. -/
def strOfExc : PyExc → String
  | .http s d => toString s ++ ": " ++ d
  | .engine m => m

/-- The metadata record the engine returns for one video (`info` /
a playlist `entry`); the source reads `title` and `duration` with `.get`
defaults, so both may be absent. -/
structure EngineInfo where
  title : Option String
  duration : Option Nat
deriving DecidableEq

/-- Outcome of the engine call `ydl.extract_info(..., download=True)` for a
single video: either a raised exception message, or the `info` record
together with the `ydl.prepare_filename(info)` prediction. -/
inductive EngineResult where
  | ok (info : EngineInfo) (preparedFilename : String)
  | err (msg : String)
deriving DecidableEq

/-- The mp3-extension override applied to a predicted filename
(src/main.py lines 193-194 and 264-265):
`filename.rsplit('.', 1)[0] + '.mp3'` when the requested format is mp3. -/
def resolvedName (format_selector prepared : String) : String :=
  if format_selector = "mp3" then String.mk (rsplitDotHead prepared.data) ++ ".mp3"
  else prepared

/-- The successful return value of `download_video`
(the dict at src/main.py lines 198-204). -/
structure DownloadOk where
  success : Bool
  file_path : String
  file_size : Nat
  title : String
  duration : Nat
deriving DecidableEq

/-- The body of the `try` block of `download_video` (src/main.py lines
188-206): an engine-raised exception propagates as-is; otherwise the
predicted filename (with mp3 override) is checked on disk, a missing file
raising `HTTPException(500, "Download completed but file not found")`.
`fsys` maps a path to `some size` when the file exists. -/
def download_video_try (format_selector : String) (eng : EngineResult)
    (fsys : String → Option Nat) : Except PyExc DownloadOk :=
  match eng with
  | .err msg => .error (.engine msg)
  | .ok info prepared =>
    let filename := resolvedName format_selector prepared
    match fsys filename with
    | some size =>
      .ok ⟨true, filename, size, info.title.getD "Unknown", info.duration.getD 0⟩
    | none => .error (.http 500 "Download completed but file not found")

/-- `YouTubeDownloader.download_video` (src/main.py lines 136-209).  The
format selection (lines 140-179) is `single_format`; the engine call is
abstracted by its outcome `eng`.  The blanket
`except Exception as e: raise HTTPException(400, f"Download failed: {str(e)}")`
at lines 208-209 wraps every exception raised inside the `try` block —
including the `HTTPException(500, ...)` raised at line 206. -/
def download_video (format_selector quality : String) (eng : EngineResult)
    (fsys : String → Option Nat) : Except PyExc DownloadOk :=
  let _fmt := single_format format_selector quality
  match download_video_try format_selector eng fsys with
  | .ok r => .ok r
  | .error e => .error (.http 400 ("Download failed: " ++ strOfExc e))

/-- The remediation detail of the authentication/bot-challenge error
(src/main.py lines 127-132). -/
def authChallengeDetail : String :=
  "YouTube is requiring authentication to access this video. " ++
  "This may happen if YouTube suspects automated traffic or the video is age-restricted. " ++
  "Try again later, or use yt-dlp with cookies as described at: " ++
  "https://github.com/yt-dlp/yt-dlp/wiki/FAQ#how-do-i-pass-cookies-to-yt-dlp"

/-- `YouTubeDownloader.get_video_info` error translation (src/main.py lines
114-134).  The engine call is abstracted by its outcome: metadata is
returned unchanged; a raised exception whose message matches the
bot/cookie/authentication patterns becomes the dedicated remediation
`HTTPException(400, ...)`, any other one the generic
`"Failed to extract video info: ..."` message. -/
def get_video_info {α : Type} (eng : Except String α) : Except PyExc α :=
  match eng with
  | .ok info => .ok info
  | .error msg =>
    if pyIn "Sign in to confirm you’re not a bot" msg = true
        ∨ pyIn "cookies" (pyLower msg) = true
        ∨ pyIn "authentication" (pyLower msg) = true then
      .error (.http 400 authChallengeDetail)
    else
      .error (.http 400 ("Failed to extract video info: " ++ msg))

/-- One element of the `files` list of a playlist result
(src/main.py lines 269-273). -/
structure PlaylistFile where
  title : String
  file_path : String
  file_size : Nat
deriving DecidableEq

/-- The successful return value of `download_playlist`
(the dict at src/main.py lines 276-282). -/
structure PlaylistOk where
  success : Bool
  playlist_title : String
  downloaded_count : Nat
  files : List PlaylistFile
  total_size : Nat
deriving DecidableEq

/-- One playlist entry as the engine returns it; `none` models a falsy
entry (the `if entry:` test at line 262). -/
structure PlaylistEntry where
  title : Option String
  preparedFilename : String
deriving DecidableEq

/-- Outcome of the engine call for a playlist: a raised exception message,
or the playlist title (absent ↦ `.get` default) together with the
`entries` list — `none` when the `info` dict has no `'entries'` key. -/
inductive PlaylistEngine where
  | ok (title : Option String) (entries : Option (List (Option PlaylistEntry)))
  | err (msg : String)
deriving DecidableEq

/-- The playlist index range string
`f"{start_index}:{end_index if end_index else ''}"` (src/main.py line 216);
`end_index` equal to `None` or `0` is falsy and renders as the empty
string. -/
def playlist_indices (start_index : Nat) (end_index : Option Nat) : String :=
  toString start_index ++ ":" ++
    (match end_index with
     | some e => if e = 0 then "" else toString e
     | none => "")

/-- The aggregation loop of `download_playlist` (src/main.py lines 257-274):
falsy entries are skipped, each remaining entry's predicted filename gets
the mp3 override, entries whose file is absent are skipped, and the located
files are accumulated in order together with the running size total. -/
def collectFiles (format_selector : String) (fsys : String → Option Nat) :
    List (Option PlaylistEntry) → List PlaylistFile × Nat
  | [] => ([], 0)
  | none :: rest => collectFiles format_selector fsys rest
  | some e :: rest =>
    let filename := resolvedName format_selector e.preparedFilename
    let acc := collectFiles format_selector fsys rest
    match fsys filename with
    | some size => (⟨e.title.getD "Unknown", filename, size⟩ :: acc.1, size + acc.2)
    | none => acc

/-- `YouTubeDownloader.download_playlist` (src/main.py lines 211-285).  The
format selection (lines 219-243) is `playlist_format`, the index range
string (line 216) is `playlist_indices`, and the engine call is abstracted
by its outcome.  An engine-raised exception is wrapped by the blanket
`except` at lines 284-285; otherwise the entries are aggregated by
`collectFiles` (an absent `'entries'` key yields no files) and the result
dict is built with `downloaded_count = len(downloaded_files)`. -/
def download_playlist (format_selector quality : String) (start_index : Nat)
    (end_index : Option Nat) (eng : PlaylistEngine)
    (fsys : String → Option Nat) : Except PyExc PlaylistOk :=
  let _indices := playlist_indices start_index end_index
  let _fmt := playlist_format format_selector quality
  match eng with
  | .err msg => .error (.http 400 ("Playlist download failed: " ++ msg))
  | .ok title entries =>
    let acc := match entries with
               | some es => collectFiles format_selector fsys es
               | none => ([], 0)
    .ok ⟨true, title.getD "Unknown Playlist", acc.1.length, acc.1, acc.2⟩

theorem str_data_append (a b : String) : (a ++ b).data = a.data ++ b.data := by
  cases a; cases b; rfl

theorem str_mk_data (s : String) : String.mk s.data = s := by
  cases s; rfl

theorem isPrefixL_append_self (n r : List Char) : isPrefixL n (n ++ r) = true := by
  induction n with
  | nil => rfl
  | cons p ps ih => simp [isPrefixL, ih]

theorem containsSub_of_pref {n l : List Char} (h : isPrefixL n l = true) :
    containsSub l n = true := by
  cases l with
  | nil => cases n with
    | nil => rfl
    | cons p ps => simp [isPrefixL] at h
  | cons x xs => simp [containsSub, h]

theorem containsSub_append_of (pre : List Char) {t n : List Char}
    (h : containsSub t n = true) : containsSub (pre ++ t) n = true := by
  induction pre with
  | nil => simpa using h
  | cons x xs ih => simp [containsSub]; right; simpa using ih

theorem splitGo_ne_nil (sep l : List Char) (k : Nat) : splitGo sep l k ≠ [] := by
  induction l generalizing k with
  | nil => simp [splitGo]
  | cons x xs ih =>
    cases k with
    | succ k => simpa [splitGo] using ih k
    | zero =>
      by_cases h : isPrefixL sep (x :: xs) = true
      · simp [splitGo, h]
      · simp only [splitGo, h, if_false]
        cases hs : splitGo sep xs 0 <;> simp

theorem getLastD_irrel {α : Type} {t : List α} (h : t ≠ []) (d₁ d₂ : α) :
    t.getLastD d₁ = t.getLastD d₂ := by
  cases t with
  | nil => exact absurd rfl h
  | cons x xs => simp only [List.getLastD_cons]

theorem splitGo_single_cons (c x : Char) (xs : List Char) :
    splitGo [c] (x :: xs) 0 =
      if c = x then [] :: splitGo [c] xs 0
      else (x :: (splitGo [c] xs 0).headD []) :: (splitGo [c] xs 0).tail := by
  by_cases hx : c = x
  · simp [splitGo, isPrefixL, hx]
  · simp only [splitGo, isPrefixL, hx, decide_False, Bool.false_and, if_neg, if_false]
    cases hs : splitGo [c] xs 0 <;> simp [hs]

theorem splitGo_single_of_not_mem {c : Char} {l : List Char} (h : c ∉ l) :
    splitGo [c] l 0 = [l] := by
  induction l with
  | nil => rfl
  | cons x xs ih =>
    rw [splitGo_single_cons]
    have hx : c ≠ x := fun hc => h (hc ▸ List.mem_cons_self x xs)
    have hxs : c ∉ xs := fun hc => h (List.mem_cons_of_mem x hc)
    simp [hx, ih hxs]

theorem splitGo_single_two_le {c : Char} {l : List Char} (h : c ∈ l) :
    2 ≤ (splitGo [c] l 0).length := by
  induction l with
  | nil => cases h
  | cons x xs ih =>
    rw [splitGo_single_cons]
    by_cases hx : c = x
    · rw [if_pos hx]
      have hpos : 0 < (splitGo [c] xs 0).length :=
        List.length_pos.mpr (splitGo_ne_nil [c] xs 0)
      simp only [List.length_cons]
      omega
    · have hxs : c ∈ xs := by
        cases List.mem_cons.mp h with
        | inl hh => exact absurd hh hx
        | inr hh => exact hh
      rw [if_neg hx]
      cases hs : splitGo [c] xs 0 with
      | nil => exact absurd hs (splitGo_ne_nil [c] xs 0)
      | cons a t =>
        have h2 := ih hxs
        rw [hs] at h2
        simp only [hs, List.headD_cons, List.tail_cons, List.length_cons] at h2 ⊢
        omega

theorem lastPiece_append (c : Char) (a b : List Char) :
    (splitGo [c] (a ++ c :: b) 0).getLastD [] = (splitGo [c] b 0).getLastD [] := by
  induction a with
  | nil =>
    simp only [List.nil_append]
    rw [splitGo_single_cons, if_pos rfl]
    simp only [List.getLastD_cons]
  | cons x a ih =>
    simp only [List.cons_append]
    rw [splitGo_single_cons]
    by_cases hx : c = x
    · rw [if_pos hx, List.getLastD_cons]
      exact ih
    · rw [if_neg hx]
      have hmem : c ∈ a ++ c :: b := List.mem_append_right a (List.mem_cons_self c b)
      cases hs : splitGo [c] (a ++ c :: b) 0 with
      | nil => exact absurd hs (splitGo_ne_nil [c] (a ++ c :: b) 0)
      | cons h t =>
        have h2 : 2 ≤ (h :: t).length := hs ▸ splitGo_single_two_le hmem
        have ht : t ≠ [] := by
          cases t with
          | nil => simp at h2
          | cons _ _ => simp
        have ihh : (h :: t).getLastD [] = (splitGo [c] b 0).getLastD [] := hs ▸ ih
        rw [List.getLastD_cons] at ihh
        simp only [hs, List.headD_cons, List.tail_cons, List.getLastD_cons]
        rw [getLastD_irrel ht (x :: h) h]
        exact ihh

theorem splitQHead_nil : splitQHead [] = [] := rfl

theorem splitQHead_cons_q (r : List Char) : splitQHead ('?' :: r) = [] := by
  simp [splitQHead, pySplit, splitGo, isPrefixL]

theorem splitQHead_cons {x : Char} (hx : x ≠ '?') (xs : List Char) :
    splitQHead (x :: xs) = x :: splitQHead xs := by
  have hx2 : ¬('?' = x) := fun hc => hx hc.symm
  simp only [splitQHead, pySplit]
  rw [splitGo_single_cons, if_neg hx2]
  cases hs : splitGo ['?'] xs 0 <;> simp [hs]

theorem splitQHead_of_not_mem {l : List Char} (h : '?' ∉ l) : splitQHead l = l := by
  induction l with
  | nil => rfl
  | cons x xs ih =>
    have hx : x ≠ '?' := fun hc => h (hc ▸ List.mem_cons_self x xs)
    have hxs : '?' ∉ xs := fun hc => h (List.mem_cons_of_mem x hc)
    rw [splitQHead_cons hx, ih hxs]

theorem splitQHead_append_q {a : List Char} (b : List Char) (h : '?' ∉ a) :
    splitQHead (a ++ '?' :: b) = a := by
  induction a with
  | nil => simpa using splitQHead_cons_q b
  | cons x xs ih =>
    have hx : x ≠ '?' := fun hc => h (hc ▸ List.mem_cons_self x xs)
    have hxs : '?' ∉ xs := fun hc => h (List.mem_cons_of_mem x hc)
    simp only [List.cons_append]
    rw [splitQHead_cons hx, ih hxs]

theorem replGo_p_eq_filter (l : List Char) :
    replGo ['p'] [] l 0 = l.filter (fun c => c ≠ 'p') := by
  induction l with
  | nil => rfl
  | cons x xs ih =>
    by_cases hx : x = 'p'
    · subst hx
      simp [replGo, isPrefixL, ih]
    · have hx2 : ¬('p' = x) := fun hc => hx hc.symm
      simp [replGo, isPrefixL, hx2, hx, ih]

theorem playlist_height_eq_filter (q : String) :
    playlist_height q = String.mk (q.data.filter (fun c => c ≠ 'p')) := by
  simp only [playlist_height, pyReplace]
  rw [replGo_p_eq_filter]

theorem str_mk_eq_empty_iff (l : List Char) : String.mk l = "" ↔ l = [] := by
  constructor
  · intro h
    have := congrArg String.data h
    simpa using this
  · intro h
    rw [h]

theorem playlist_height_empty_iff (q : String) :
    playlist_height q = "" ↔ ∀ c ∈ q.data, c = 'p' := by
  rw [playlist_height_eq_filter, str_mk_eq_empty_iff, List.filter_eq_nil_iff]
  constructor
  · intro h c hc
    have := h c hc
    simpa using this
  · intro h c hc
    simpa using h c hc

/-- Claim C1: the claim says a single-video download whose engine call
returns but whose predicted file is absent fails as a 500-equivalent server
fault.  The source does raise `HTTPException(500, "Download completed but
file not found")` at line 206, but that raise happens inside the `try`
block, so the blanket `except Exception` at lines 208-209 catches it and
re-raises `HTTPException(400, f"Download failed: {str(e)}")`: the caller
observes a 400 whose detail embeds the stringified 500.  This theorem
evaluates the code at such a failing input. -/
theorem claim_C1_missing_file_wrapped_as_400 :
    download_video "best" "best" (.ok ⟨some "video", some 10⟩ "downloads/video.mp4")
        (fun _ => none)
      = .error (.http 400 "Download failed: 500: Download completed but file not found") := rfl

/-- Claim C7: for format selector `"mp3"`, both the single-video and the
playlist format selection yield the expression `"bestaudio/best"` and
exactly one post-processing step — audio extraction with codec mp3 at
quality 192 — whatever the quality string is. -/
theorem claim_C7_mp3_selection :
    ∀ quality : String,
      single_format "mp3" quality
          = ("bestaudio/best", [⟨"FFmpegExtractAudio", "mp3", "192"⟩]) ∧
      playlist_format "mp3" quality
          = ("bestaudio/best", [⟨"FFmpegExtractAudio", "mp3", "192"⟩]) := by
  intro q
  exact ⟨rfl, rfl⟩

/-- Claim C4, counterexample: in the playlist path the height is
`quality.replace('p', '')`, which removes every `'p'`, not just a trailing
suffix: at quality `"p720"` the code uses height `"720"` while trailing-p
stripping would keep `"p720"`.  And a quality with no digits, such as
`"abc"`, yields the non-empty height filter `"abc"`, not an empty one. -/
theorem claim_C4_counterexample :
    playlist_height "p720" = "720" ∧
    spec_trailing_p "p720" = "p720" ∧
    ("720" : String) ≠ "p720" ∧
    (playlist_format "mp4" "p720").1
      = "best[height<=720][ext=mp4]/best[height<=720]/best[ext=mp4]/best" ∧
    playlist_height "abc" = "abc" ∧
    ("abc" : String) ≠ "" ∧
    (playlist_format "mp4" "abc").1
      = "best[height<=abc][ext=mp4]/best[height<=abc]/best[ext=mp4]/best" := by
  refine ⟨rfl, rfl, by decide, rfl, rfl, by decide, rfl⟩

/-- Claim C4, amended: in the playlist format-selection path, for a quality
other than "best"/"worst" the height used in the selector expression is the
quality string with every `'p'` character removed (all other characters are
kept verbatim, digits or not); the height filter is empty exactly when the
quality consists solely of `'p'` characters, and there is no 1080
fallback. -/
theorem claim_C4_playlist_height :
    (∀ q : String, q ≠ "best" → q ≠ "worst" →
        (playlist_format "mp4" q).1 =
          "best[height<=" ++ playlist_height q ++ "][ext=mp4]/" ++
          "best[height<=" ++ playlist_height q ++ "]/best[ext=mp4]/best") ∧
    (∀ fs q : String, fs ≠ "mp3" → fs ≠ "mp4" → q ≠ "best" → q ≠ "worst" →
        (playlist_format fs q).1 = "best[height<=" ++ playlist_height q ++ "]/best") ∧
    (∀ q : String, playlist_height q = String.mk (q.data.filter (fun c => c ≠ 'p'))) ∧
    (∀ q : String, playlist_height q = "" ↔ ∀ c ∈ q.data, c = 'p') := by
  refine ⟨?_, ?_, playlist_height_eq_filter, playlist_height_empty_iff⟩
  · intro q h1 h2
    simp [playlist_format, h1, h2]
  · intro fs q hfs3 hfs4 h1 h2
    simp [playlist_format, hfs3, hfs4, h1, h2]

/-- Witness for claim C4's amended theorem at quality `"720p"`. -/
theorem claim_C4_witness :
    (playlist_format "mp4" "720p").1 =
      "best[height<=" ++ playlist_height "720p" ++ "][ext=mp4]/" ++
      "best[height<=" ++ playlist_height "720p" ++ "]/best[ext=mp4]/best" :=
  claim_C4_playlist_height.1 "720p" (by decide) (by decide)

/-- Claim C3, counterexample: a mobile-host URL is not always preserved
outside its host substring.  When the substituted URL contains `/embed/`,
the embed rule rewrites path and query away; and `.replace` substitutes
every occurrence of the mobile marker, including one sitting in the query
string. -/
theorem claim_C3_counterexample :
    normalize_url "https://m.youtube.com/embed/abc?x=1"
        = "https://www.youtube.com/watch?v=abc" ∧
    normalize_url "https://m.youtube.com/embed/abc?x=1"
        ≠ "https://www.youtube.com/embed/abc?x=1" ∧
    normalize_url "https://m.youtube.com/watch?a=m.youtube.com"
        = "https://www.youtube.com/watch?a=www.youtube.com" := by
  refine ⟨by decide, by decide, by decide⟩

/-- Claim C3, amended: for an input containing the mobile host marker (and
not the short-link marker), normalization returns the input with every
occurrence of `m.youtube.com` replaced by `www.youtube.com` — so the path
and query are preserved — provided the substituted string contains neither
an `/embed/` nor a `/v/` marker; when one of those is present the
id-extraction rules run on the substituted string instead. -/
theorem claim_C3_mobile_host :
    ∀ url : String, pyIn "youtu.be" url = false → pyIn "m.youtube.com" url = true →
      pyIn "/embed/"
          (String.mk (pyReplace "m.youtube.com".data "www.youtube.com".data url.data)) = false →
      pyIn "/v/"
          (String.mk (pyReplace "m.youtube.com".data "www.youtube.com".data url.data)) = false →
      normalize_url url
        = String.mk (pyReplace "m.youtube.com".data "www.youtube.com".data url.data) := by
  intro url h1 h2 h3 h4
  simp [normalize_url, h1, h2, h3, h4]

/-- Witness for claim C3's amended theorem at a plain mobile watch URL. -/
theorem claim_C3_witness :
    normalize_url "https://m.youtube.com/watch?v=abc"
      = "https://www.youtube.com/watch?v=abc" :=
  (claim_C3_mobile_host "https://m.youtube.com/watch?v=abc"
    (by decide) (by decide) (by decide) (by decide)).trans (by decide)

/-- Claim C2, counterexample: the very bot-challenge message that
`get_video_info` translates into the dedicated remediation error is, when
raised during `download_video`, wrapped into the generic
`"Download failed: ..."` 400 message with no remediation guidance. -/
theorem claim_C2_counterexample :
    download_video "best" "best" (.err "Sign in to confirm you’re not a bot")
        (fun _ => none)
      = .error (.http 400 "Download failed: Sign in to confirm you’re not a bot") ∧
    "Download failed: Sign in to confirm you’re not a bot" ≠ authChallengeDetail ∧
    get_video_info (α := Unit) (.error "Sign in to confirm you’re not a bot")
      = .error (.http 400 authChallengeDetail) := by
  refine ⟨rfl, by decide, rfl⟩

/-- Claim C2, amended: only the metadata path `get_video_info` translates
engine errors whose message matches the bot/cookie/authentication patterns
into the distinct remediation error; an engine error raised during
`download_video` or `download_playlist` is surfaced as the generic
`"Download failed: ..."` resp. `"Playlist download failed: ..."` 400
message, whatever its content. -/
theorem claim_C2_auth_translation :
    (∀ msg : String,
        (pyIn "Sign in to confirm you’re not a bot" msg = true ∨
         pyIn "cookies" (pyLower msg) = true ∨
         pyIn "authentication" (pyLower msg) = true) →
        get_video_info (α := Unit) (.error msg)
          = .error (.http 400 authChallengeDetail)) ∧
    (∀ (msg fsel q : String) (fsys : String → Option Nat),
        download_video fsel q (.err msg) fsys
          = .error (.http 400 ("Download failed: " ++ msg))) ∧
    (∀ (msg fsel q : String) (si : Nat) (ei : Option Nat)
        (fsys : String → Option Nat),
        download_playlist fsel q si ei (.err msg) fsys
          = .error (.http 400 ("Playlist download failed: " ++ msg))) := by
  refine ⟨?_, ?_, ?_⟩
  · intro msg h
    simp only [get_video_info]
    rw [if_pos h]
  · intro msg fsel q fsys
    rfl
  · intro msg fsel q si ei fsys
    rfl

/-- Witness for claim C2's amended theorem at the engine message
`"cookies"`. -/
theorem claim_C2_witness :
    get_video_info (α := Unit) (.error "cookies")
      = .error (.http 400 authChallengeDetail) :=
  claim_C2_auth_translation.1 "cookies" (by decide)

theorem collectFiles_all_missing (fsel : String) (es : List (Option PlaylistEntry)) :
    collectFiles fsel (fun _ => none) es = ([], 0) := by
  induction es with
  | nil => rfl
  | cons e rest ih =>
    cases e with
    | none => simpa [collectFiles] using ih
    | some e => simpa [collectFiles] using ih

theorem collectFiles_snd_eq_sum (fsel : String) (fsys : String → Option Nat)
    (es : List (Option PlaylistEntry)) :
    (collectFiles fsel fsys es).2
      = ((collectFiles fsel fsys es).1.map PlaylistFile.file_size).sum := by
  induction es with
  | nil => rfl
  | cons e rest ih =>
    cases e with
    | none => simpa [collectFiles] using ih
    | some e =>
      simp only [collectFiles]
      cases hf : fsys (resolvedName fsel e.preparedFilename) with
      | none => simpa using ih
      | some size => simp [ih]

/-- Claim C6: in the single-video path, the height extracted from a quality
string strips all non-digit characters — "720p" ↦ "720", "1080" ↦ "1080" —
and any string with no digits (including "abc" and "") falls back to the
default "1080"; the function is total, and for `format = "mp4"` and a
quality other than "best"/"worst" the selector expression is the documented
fallback chain built from that height. -/
theorem claim_C6_single_height :
    single_height "720p" = "720" ∧
    single_height "1080" = "1080" ∧
    single_height "abc" = "1080" ∧
    single_height "" = "1080" ∧
    (∀ q : String, (∀ c ∈ q.data, c.isDigit = false) → single_height q = "1080") ∧
    (∀ q : String, q ≠ "best" → q ≠ "worst" →
      (single_format "mp4" q).1 =
        "bestvideo[height<=" ++ single_height q ++ "][ext=mp4]+bestaudio[ext=m4a]/" ++
        "best[height<=" ++ single_height q ++ "][ext=mp4]/" ++
        "bestvideo[ext=mp4]+bestaudio[ext=m4a]/best[ext=mp4]/best") := by
  refine ⟨rfl, rfl, rfl, rfl, ?_, ?_⟩
  · intro q h
    have hf : q.data.filter Char.isDigit = [] :=
      List.filter_eq_nil_iff.mpr (fun c hc => by simp [h c hc])
    simp [single_height, stripNonDigits, hf]
  · intro q h1 h2
    simp [single_format, h1, h2]
    rw [if_neg (by decide : ¬(pyIsdigit "mp4" = true ∨ pyIn "-" "mp4" = true))]

/-- Witness for claim C6 at quality `"720p"`. -/
theorem claim_C6_witness :
    (single_format "mp4" "720p").1 =
      "bestvideo[height<=" ++ single_height "720p" ++ "][ext=mp4]+bestaudio[ext=m4a]/" ++
      "best[height<=" ++ single_height "720p" ++ "][ext=mp4]/" ++
      "bestvideo[ext=mp4]+bestaudio[ext=m4a]/best[ext=mp4]/best" :=
  claim_C6_single_height.2.2.2.2.2 "720p" (by decide) (by decide)

/-- Claim C8: a playlist download whose engine call succeeds but for which
no entry file is present on disk is not an error — it returns a well-formed
success result with `downloaded_count = 0`, an empty `files` list and
`total_size = 0`, each missing-file entry being skipped. -/
theorem claim_C8_playlist_zero_files :
    ∀ (fsel q : String) (si : Nat) (ei : Option Nat) (title : Option String)
      (entries : Option (List (Option PlaylistEntry))),
      download_playlist fsel q si ei (.ok title entries) (fun _ => none)
        = .ok ⟨true, title.getD "Unknown Playlist", 0, [], 0⟩ := by
  intro fsel q si ei title entries
  cases entries with
  | none => rfl
  | some es => simp [download_playlist, collectFiles_all_missing]

/-- Claim C9: every successful playlist result satisfies
`downloaded_count = files.length` and
`total_size = sum of file_size over files`. -/
theorem claim_C9_playlist_invariant :
    ∀ (fsel q : String) (si : Nat) (ei : Option Nat) (eng : PlaylistEngine)
      (fsys : String → Option Nat) (r : PlaylistOk),
      download_playlist fsel q si ei eng fsys = .ok r →
      r.downloaded_count = r.files.length ∧
      r.total_size = (r.files.map PlaylistFile.file_size).sum := by
  intro fsel q si ei eng fsys r h
  cases eng with
  | err msg => simp [download_playlist] at h
  | ok title entries =>
    simp only [download_playlist] at h
    cases entries with
    | none =>
      rw [← (Except.ok.injEq _ _).mp h]
      exact ⟨rfl, rfl⟩
    | some es =>
      rw [← (Except.ok.injEq _ _).mp h]
      exact ⟨rfl, collectFiles_snd_eq_sum fsel fsys es⟩

/-- Witness for claim C9 at a concrete one-entry playlist download. -/
theorem claim_C9_witness :
    (⟨true, "T", 1, [⟨"a", "downloads/T/1 - a.mp4", 5⟩], 5⟩ : PlaylistOk).downloaded_count
        = (⟨true, "T", 1, [⟨"a", "downloads/T/1 - a.mp4", 5⟩], 5⟩ : PlaylistOk).files.length ∧
    (⟨true, "T", 1, [⟨"a", "downloads/T/1 - a.mp4", 5⟩], 5⟩ : PlaylistOk).total_size
        = ((⟨true, "T", 1, [⟨"a", "downloads/T/1 - a.mp4", 5⟩], 5⟩ : PlaylistOk).files.map
            PlaylistFile.file_size).sum :=
  claim_C9_playlist_invariant "best" "best" 1 none
    (.ok (some "T") (some [some ⟨some "a", "downloads/T/1 - a.mp4"⟩]))
    (fun f => if f = "downloads/T/1 - a.mp4" then some 5 else none)
    ⟨true, "T", 1, [⟨"a", "downloads/T/1 - a.mp4", 5⟩], 5⟩ rfl

/-- Claim C10: the short-link rule fires for any input containing the
`youtu.be` marker anywhere, before any other rule; and whenever the last
`'/'`-separated segment of such an input is empty or begins with `'?'`, the
extracted identifier is empty and normalization returns
`"https://www.youtube.com/watch?v="` verbatim, without raising. -/
theorem claim_C10_short_link_priority :
    ∀ url : String, pyIn "youtu.be" url = true →
      (normalize_url url = "https://www.youtube.com/watch?v=" ++
          String.mk (splitQHead ((pySplit ['/'] url.data).getLastD []))) ∧
      ((pySplit ['/'] url.data).getLastD [] = [] →
        normalize_url url = "https://www.youtube.com/watch?v=") ∧
      (∀ r : List Char, (pySplit ['/'] url.data).getLastD [] = '?' :: r →
        normalize_url url = "https://www.youtube.com/watch?v=") := by
  intro url h
  have hmain : normalize_url url = "https://www.youtube.com/watch?v=" ++
      String.mk (splitQHead ((pySplit ['/'] url.data).getLastD [])) := by
    simp [normalize_url, h]
  refine ⟨hmain, ?_, ?_⟩
  · intro he
    rw [hmain, he, splitQHead_nil]
    decide
  · intro r he
    rw [hmain, he, splitQHead_cons_q]
    decide

/-- Witness for claim C10: an input that contains the marker inside a
larger string, also contains the embed marker, and whose last segment is
empty still takes the short-link rule and yields the empty identifier. -/
theorem claim_C10_witness :
    normalize_url "xyoutu.be/embed/" = "https://www.youtube.com/watch?v=" :=
  (claim_C10_short_link_priority "xyoutu.be/embed/" (by decide)).2.1 (by decide)

/-- Claim C5, counterexample: the claim quantifies over every short link
`https://youtu.be/<id>[?query]`, but the code splits on `'/'` over the
whole string before discarding the query, so a query string containing a
`'/'` hijacks the identifier. -/
theorem claim_C5_counterexample :
    normalize_url "https://youtu.be/abc?list=x/y" = "https://www.youtube.com/watch?v=y" ∧
    normalize_url "https://youtu.be/abc?list=x/y" ≠ "https://www.youtube.com/watch?v=abc" := by
  refine ⟨by decide, by decide⟩

/-- Claim C5, amended: for every short-link input
`https://youtu.be/<id>` or `https://youtu.be/<id>?<query>` in which `<id>`
contains neither `'/'` nor `'?'` and `<query>` contains no `'/'`,
normalization returns exactly `https://www.youtube.com/watch?v=<id>`. -/
theorem claim_C5_short_link :
    ∀ id q : String,
      (∀ c ∈ id.data, c ≠ '/' ∧ c ≠ '?') →
      (∀ c ∈ q.data, c ≠ '/') →
      normalize_url ("https://youtu.be/" ++ id ++ "?" ++ q)
          = "https://www.youtube.com/watch?v=" ++ id ∧
      normalize_url ("https://youtu.be/" ++ id)
          = "https://www.youtube.com/watch?v=" ++ id := by
  intro id q hid hq
  have hpre : ("https://youtu.be" : String).data
      = "https://".data ++ "youtu.be".data := by decide
  have hnq : '?' ∉ id.data := fun hc => (hid _ hc).2 rfl
  constructor
  · have hdata : ("https://youtu.be/" ++ id ++ "?" ++ q).data
        = "https://youtu.be".data ++ '/' :: (id.data ++ '?' :: q.data) := by
      simp [str_data_append, List.append_assoc]
    have hin : pyIn "youtu.be" ("https://youtu.be/" ++ id ++ "?" ++ q) = true := by
      unfold pyIn
      rw [hdata, hpre, List.append_assoc]
      exact containsSub_append_of _ (containsSub_of_pref (isPrefixL_append_self _ _))
    have hmem : '/' ∉ id.data ++ '?' :: q.data := by
      intro hc
      rcases List.mem_append.mp hc with h | h
      · exact (hid _ h).1 rfl
      · rcases List.mem_cons.mp h with h | h
        · exact absurd h (by decide)
        · exact hq _ h rfl
    have hlast : (pySplit ['/'] ("https://youtu.be/" ++ id ++ "?" ++ q).data).getLastD []
        = id.data ++ '?' :: q.data := by
      rw [hdata]
      unfold pySplit
      rw [lastPiece_append, splitGo_single_of_not_mem hmem]
      simp [List.getLastD_cons]
    have hqh : splitQHead (id.data ++ '?' :: q.data) = id.data :=
      splitQHead_append_q _ hnq
    simp only [normalize_url, hin, if_true]
    rw [hlast, hqh, str_mk_data]
  · have hdata : ("https://youtu.be/" ++ id).data
        = "https://youtu.be".data ++ '/' :: id.data := by
      simp [str_data_append, List.append_assoc]
    have hin : pyIn "youtu.be" ("https://youtu.be/" ++ id) = true := by
      unfold pyIn
      rw [hdata, hpre, List.append_assoc]
      exact containsSub_append_of _ (containsSub_of_pref (isPrefixL_append_self _ _))
    have hmem : '/' ∉ id.data := fun hc => (hid _ hc).1 rfl
    have hlast : (pySplit ['/'] ("https://youtu.be/" ++ id).data).getLastD []
        = id.data := by
      rw [hdata]
      unfold pySplit
      rw [lastPiece_append, splitGo_single_of_not_mem hmem]
      simp [List.getLastD_cons]
    simp only [normalize_url, hin, if_true]
    rw [hlast, splitQHead_of_not_mem hnq, str_mk_data]

/-- Witness for claim C5's amended theorem at identifier `"abc"` and query
`"t=1"`. -/
theorem claim_C5_witness :
    normalize_url ("https://youtu.be/" ++ "abc" ++ "?" ++ "t=1")
      = "https://www.youtube.com/watch?v=" ++ "abc" :=
  (claim_C5_short_link "abc" "t=1" (by decide) (by decide)).1
